import Mathlib

/-!
Verification of `libs/vr/libpdx_uds/service_endpoint.cpp` (android::pdx::uds::Endpoint).

The endpoint multiplexes client connections over Unix-domain sockets.  We embed
the channel table (`channels_`, `channel_fd_to_id_`, `last_channel_id_`), the
per-message state (`MessageState`), and the receive/reply protocol as pure Lean
functions.  External effects (epoll syscalls, socket reads/writes, `accept4`)
are supplied by explicit oracle values describing what each syscall returned,
and each modelled operation additionally returns the list of external actions
it performed, so that ordering properties (re-arm after read, no payload read
for impulses) are expressible.
-/

namespace PdxUds

/-- errno EINVAL. -/
def EINVAL : Int := 22

/-- errno EBADF. -/
def EBADF : Int := 9

/-- errno ESHUTDOWN. -/
def ESHUTDOWN : Int := 108

/-- errno ETIMEDOUT. -/
def ETIMEDOUT : Int := 110

/-- The value `std::numeric_limits<int32_t>::max()`. -/
def int32Max : Int := 2147483647

/-- Association-list lookup, modelling `std::map::find` /
`std::unordered_map::find` (keys are unique in well-formed states). -/
def findValue (k : Int) : List (Int × α) → Option α
  | [] => none
  | (k0, v) :: rest => if k0 = k then some v else findValue k rest

/-- Association-list erase of the (unique) entry with key `k`, modelling
`std::map::erase` / `std::unordered_map::erase`. -/
def eraseKey (k : Int) : List (Int × α) → List (Int × α)
  | [] => []
  | (k0, v) :: rest => if k0 = k then rest else (k0, v) :: eraseKey k rest

/-- Insert if the key is absent, modelling `std::map::emplace` (which does not
overwrite an existing entry). -/
def emplaceKey (k : Int) (v : α) (m : List (Int × α)) : List (Int × α) :=
  if (findValue k m).isSome then m else (k, v) :: m

theorem findValue_mem {k : Int} {v : α} {m : List (Int × α)}
    (h : findValue k m = some v) : (k, v) ∈ m := by
  induction m with
  | nil => simp [findValue] at h
  | cons p rest ih =>
    obtain ⟨k0, v0⟩ := p
    by_cases hk : k0 = k
    · subst hk
      simp [findValue] at h
      subst h
      exact List.mem_cons_self _ _
    · simp [findValue, hk] at h
      exact List.mem_cons_of_mem _ (ih h)

theorem findValue_isSome_of_mem {k : Int} {v : α} {m : List (Int × α)}
    (h : (k, v) ∈ m) : (findValue k m).isSome := by
  induction m with
  | nil => simp at h
  | cons p rest ih =>
    obtain ⟨k0, v0⟩ := p
    rcases List.mem_cons.mp h with h1 | h2
    · cases h1
      simp [findValue]
    · by_cases hk : k0 = k
      · simp [findValue, hk]
      · simpa [findValue, hk] using ih h2

theorem findValue_eraseKey_ne {k k0 : Int} {m : List (Int × α)} (h : k ≠ k0) :
    findValue k (eraseKey k0 m) = findValue k m := by
  induction m with
  | nil => rfl
  | cons p rest ih =>
    obtain ⟨k1, v1⟩ := p
    by_cases hk1 : k1 = k0
    · subst hk1
      have : k1 ≠ k := fun he => h he.symm
      simp [eraseKey, findValue, this]
    · by_cases hk : k1 = k
      · subst hk
        simp [eraseKey, findValue, hk1, h]
      · simp [eraseKey, findValue, hk1, hk, ih]

theorem eraseKey_sublist (k : Int) (m : List (Int × α)) :
    (eraseKey k m).Sublist m := by
  induction m with
  | nil => simp [eraseKey]
  | cons p rest ih =>
    obtain ⟨k0, v0⟩ := p
    by_cases hk : k0 = k
    · simp [eraseKey, hk]
    · simpa [eraseKey, hk] using List.Sublist.cons₂ (k0, v0) ih

theorem keys_nodup_eraseKey {k : Int} {m : List (Int × α)}
    (h : (m.map Prod.fst).Nodup) : ((eraseKey k m).map Prod.fst).Nodup :=
  List.Nodup.sublist (List.Sublist.map Prod.fst (eraseKey_sublist k m)) h

theorem not_mem_eraseKey_self {k : Int} {v : α} {m : List (Int × α)}
    (hnd : (m.map Prod.fst).Nodup) (h : (k, v) ∈ eraseKey k m) : False := by
  induction m with
  | nil => simp [eraseKey] at h
  | cons p rest ih =>
    obtain ⟨k0, v0⟩ := p
    rw [List.map_cons, List.nodup_cons] at hnd
    by_cases hk : k0 = k
    · subst hk
      simp [eraseKey] at h
      have hm : (k0 : Int) ∈ rest.map Prod.fst := List.mem_map_of_mem Prod.fst h
      exact hnd.1 hm
    · simp [eraseKey, hk] at h
      rcases h with ⟨h1, _⟩ | h2
      · exact hk h1.symm
      · exact ih hnd.2 h2

/-- Per-channel bookkeeping: `Endpoint::ChannelData` (owned socket handle,
the channel event set's event fd, and the opaque `Channel*` service state,
modelled as an opaque number). -/
structure ChannelData where
  data_fd : Int
  event_fd : Int
  channel_state : Option Nat
deriving DecidableEq

/-- The mutable endpoint state: the two channel maps guarded by
`channel_mutex_`, the rolling channel-id counter, the message-id counter,
and the listening / cancel descriptors fixed at construction. -/
structure Endpoint where
  channels_ : List (Int × ChannelData)
  channel_fd_to_id_ : List (Int × Int)
  last_channel_id_ : Int
  next_message_id_ : Int
  socket_fd_ : Int
  cancel_event_fd_ : Int
  service_ : Option Nat
deriving DecidableEq

/-- One step of the id-scan loop in `Endpoint::OnNewChannelLocked`:
`if (last_channel_id_++ == std::numeric_limits<int32_t>::max()) last_channel_id_ = 1;`
The candidate tried next is the post-increment value. -/
def nextChannelIdCandidate (last : Int) : Int :=
  if last = int32Max then 1 else last + 1

/-- The id-scan loop of `Endpoint::OnNewChannelLocked`: try successive
candidates until one is not in `channels_`.  The C++ loop is unbounded; we
give it fuel covering the whole 32-bit id space. -/
def findFreeChannelId (channels : List (Int × ChannelData)) :
    Int → Nat → Option Int
  | _, 0 => none
  | last, Nat.succ fuel =>
    let cand := nextChannelIdCandidate last
    if (findValue cand channels).isSome then findFreeChannelId channels cand fuel
    else some cand

/-- Fuel for the id scan: the size of the positive 32-bit id space. -/
def channelIdFuel : Nat := 2147483647

/-- Source `Endpoint::OnNewChannelLocked`.  `epollAddErr` is the outcome of the
`epoll_ctl(EPOLL_CTL_ADD)` syscall (`none` = success); `event_fd` is the
fresh eventfd created inside the new `ChannelData`'s event set.  On success
returns the new channel id and the updated endpoint (both maps extended, the
rolling counter left at the assigned id). -/
def Endpoint.onNewChannelLocked (ep : Endpoint) (epollAddErr : Option Int)
    (channel_fd event_fd : Int) (channel_state : Option Nat) :
    Except Int (Int × Endpoint) :=
  match epollAddErr with
  | some e => .error e
  | none =>
    match findFreeChannelId ep.channels_ ep.last_channel_id_ channelIdFuel with
    | none => .error EINVAL
    | some id =>
      let cd : ChannelData :=
        { data_fd := channel_fd, event_fd := event_fd,
          channel_state := channel_state }
      .ok (id, { ep with
        channels_ := (id, cd) :: ep.channels_,
        channel_fd_to_id_ := emplaceKey channel_fd id ep.channel_fd_to_id_,
        last_channel_id_ := id })

/-- Source `Endpoint::CloseChannelLocked`.  `epollDelErr` is the outcome of the
`epoll_ctl(EPOLL_CTL_DEL)` syscall.  An unknown id fails with `EINVAL`;
otherwise both map entries are erased regardless of the epoll outcome, and
the epoll error (if any) is the returned status. -/
def Endpoint.closeChannelLocked (ep : Endpoint) (epollDelErr : Option Int)
    (channel_id : Int) : Except Int Unit × Endpoint :=
  match findValue channel_id ep.channels_ with
  | none => (.error EINVAL, ep)
  | some cd =>
    let status : Except Int Unit :=
      match epollDelErr with
      | none => .ok ()
      | some e => .error e
    (status, { ep with
      channel_fd_to_id_ := eraseKey cd.data_fd ep.channel_fd_to_id_,
      channels_ := eraseKey channel_id ep.channels_ })

/-- One channel-table operation: a registration (`OnNewChannelLocked`, reached
from `OnNewChannel`, `AcceptConnection` and `PushChannel`) or a close
(`CloseChannelLocked`, reached from `CloseChannel`). -/
inductive TableOp where
  | register (epollAddErr : Option Int) (channel_fd event_fd : Int)
      (channel_state : Option Nat)
  | close (epollDelErr : Option Int) (channel_id : Int)
deriving DecidableEq

/-- Apply one table operation to the endpoint state. -/
def Endpoint.runTableOp (ep : Endpoint) : TableOp → Endpoint
  | .register e fd ev cs =>
    match ep.onNewChannelLocked e fd ev cs with
    | .ok (_, ep2) => ep2
    | .error _ => ep
  | .close e id => (ep.closeChannelLocked e id).2

/-- Apply a sequence of table operations. -/
def Endpoint.runTableOps (ep : Endpoint) : List TableOp → Endpoint
  | [] => ep
  | op :: ops => (ep.runTableOp op).runTableOps ops

/-- Mutual consistency of the forward map `channels_` and the reverse map
`channel_fd_to_id_`: keys are unique in both, every channel's socket fd maps
back to exactly its id, and every reverse entry points at a live channel
owning exactly that fd. -/
def Endpoint.consistentMaps (ep : Endpoint) : Prop :=
  (ep.channels_.map Prod.fst).Nodup ∧
  (ep.channel_fd_to_id_.map Prod.fst).Nodup ∧
  (∀ p ∈ ep.channels_, findValue p.2.data_fd ep.channel_fd_to_id_ = some p.1) ∧
  (∀ q ∈ ep.channel_fd_to_id_,
    (findValue q.2 ep.channels_).map ChannelData.data_fd = some q.1)

/-- A registration's socket fd is fresh: the kernel never hands out a
descriptor number that is still open, and every registered fd stays open until
its channel is closed, so the fd of a `register` is never already in the
reverse map. -/
def freshRegisterFd (ep : Endpoint) : TableOp → Bool
  | .register _ fd _ _ => (findValue fd ep.channel_fd_to_id_).isNone
  | .close _ _ => true

/-- Every `register` in the sequence uses a socket fd fresh at that point. -/
def freshOps : Endpoint → List TableOp → Bool
  | _, [] => true
  | ep, op :: ops => freshRegisterFd ep op && freshOps (ep.runTableOp op) ops

/-- The endpoint state right after construction: empty maps, id counter 0. -/
def initialEndpoint (socket_fd cancel_event_fd : Int) : Endpoint :=
  { channels_ := [], channel_fd_to_id_ := [], last_channel_id_ := 0,
    next_message_id_ := 0, socket_fd_ := socket_fd,
    cancel_event_fd_ := cancel_event_fd, service_ := none }

theorem not_mem_keys_of_findValue_none {k : Int} {m : List (Int × α)}
    (h : findValue k m = none) : k ∉ m.map Prod.fst := by
  intro hk
  obtain ⟨p, hp, hfst⟩ := List.mem_map.mp hk
  have := findValue_isSome_of_mem (k := k) (v := p.2) (by
    have : p = (k, p.2) := by
      apply Prod.ext <;> simp [hfst]
    exact this ▸ hp)
  rw [h] at this
  simp at this

theorem findFreeChannelId_not_in_table {channels : List (Int × ChannelData)}
    {last : Int} {fuel : Nat} {id : Int}
    (h : findFreeChannelId channels last fuel = some id) :
    findValue id channels = none := by
  induction fuel generalizing last with
  | zero => simp [findFreeChannelId] at h
  | succ fuel ih =>
    rw [findFreeChannelId] at h
    by_cases hc : (findValue (nextChannelIdCandidate last) channels).isSome
    · rw [if_pos hc] at h
      exact ih h
    · rw [if_neg hc] at h
      cases h
      exact Option.not_isSome_iff_eq_none.mp hc

theorem nextChannelIdCandidate_bounds {last : Int}
    (h0 : 0 ≤ last) (h1 : last ≤ int32Max) :
    1 ≤ nextChannelIdCandidate last ∧ nextChannelIdCandidate last ≤ int32Max := by
  unfold nextChannelIdCandidate
  by_cases he : last = int32Max
  · simp [he, int32Max]
  · rw [if_neg he]
    constructor
    · omega
    · have : last < int32Max := lt_of_le_of_ne h1 he
      omega

theorem findFreeChannelId_bounds {channels : List (Int × ChannelData)}
    {last : Int} {fuel : Nat} {id : Int}
    (h : findFreeChannelId channels last fuel = some id)
    (h0 : 0 ≤ last) (h1 : last ≤ int32Max) :
    1 ≤ id ∧ id ≤ int32Max := by
  induction fuel generalizing last with
  | zero => simp [findFreeChannelId] at h
  | succ fuel ih =>
    rw [findFreeChannelId] at h
    obtain ⟨hc1, hc2⟩ := nextChannelIdCandidate_bounds h0 h1
    by_cases hc : (findValue (nextChannelIdCandidate last) channels).isSome
    · rw [if_pos hc] at h
      exact ih h (le_trans (by omega) hc1) hc2
    · rw [if_neg hc] at h
      cases h
      exact ⟨hc1, hc2⟩

theorem consistentMaps_runTableOp {ep : Endpoint} {op : TableOp}
    (hwf : ep.consistentMaps) (hfresh : freshRegisterFd ep op = true) :
    (ep.runTableOp op).consistentMaps := by
  obtain ⟨hnd1, hnd2, hdir1, hdir2⟩ := hwf
  cases op with
  | register e fd ev cs =>
    have hfr : findValue fd ep.channel_fd_to_id_ = none := by
      simpa [freshRegisterFd, Option.isNone_iff_eq_none] using hfresh
    cases e with
    | some err => exact ⟨hnd1, hnd2, hdir1, hdir2⟩
    | none =>
      simp only [Endpoint.runTableOp, Endpoint.onNewChannelLocked]
      cases hfind : findFreeChannelId ep.channels_ ep.last_channel_id_ channelIdFuel with
      | none => exact ⟨hnd1, hnd2, hdir1, hdir2⟩
      | some id =>
        have hidfree : findValue id ep.channels_ = none :=
          findFreeChannelId_not_in_table hfind
        simp only [emplaceKey, hfr, Option.isSome_none, Bool.false_eq_true,
          if_false]
        refine ⟨?_, ?_, ?_, ?_⟩
        · rw [List.map_cons, List.nodup_cons]
          exact ⟨not_mem_keys_of_findValue_none hidfree, hnd1⟩
        · rw [List.map_cons, List.nodup_cons]
          exact ⟨not_mem_keys_of_findValue_none hfr, hnd2⟩
        · intro p hp
          rcases List.mem_cons.mp hp with h1 | h2
          · subst h1
            simp [findValue]
          · have hne : fd ≠ p.2.data_fd := by
              intro he
              have := hdir1 p h2
              rw [← he, hfr] at this
              simp at this
            simp only [findValue, if_neg hne]
            exact hdir1 p h2
        · intro q hq
          rcases List.mem_cons.mp hq with h1 | h2
          · subst h1
            simp [findValue]
          · have hne : id ≠ q.2 := by
              intro he
              have := hdir2 q h2
              rw [← he, hidfree] at this
              simp at this
            simp only [findValue, if_neg hne]
            exact hdir2 q h2
  | close e cid =>
    simp only [Endpoint.runTableOp, Endpoint.closeChannelLocked]
    cases hfind : findValue cid ep.channels_ with
    | none => exact ⟨hnd1, hnd2, hdir1, hdir2⟩
    | some cd =>
      have hcdmem : (cid, cd) ∈ ep.channels_ := findValue_mem hfind
      have hcdfd : findValue cd.data_fd ep.channel_fd_to_id_ = some cid :=
        hdir1 (cid, cd) hcdmem
      refine ⟨keys_nodup_eraseKey hnd1, keys_nodup_eraseKey hnd2, ?_, ?_⟩
      · intro p hp
        have hpmem : p ∈ ep.channels_ := (eraseKey_sublist cid _).subset hp
        have hne : p.2.data_fd ≠ cd.data_fd := by
          intro he
          have h1 := hdir1 p hpmem
          rw [he, hcdfd] at h1
          have hp1 : p.1 = cid := by
            injection h1 with h1
            exact h1.symm
          apply not_mem_eraseKey_self (k := cid) (v := p.2) hnd1
          have : p = (cid, p.2) := by
            apply Prod.ext <;> simp [hp1]
          exact this ▸ hp
        rw [findValue_eraseKey_ne hne]
        exact hdir1 p hpmem
      · intro q hq
        have hqmem : q ∈ ep.channel_fd_to_id_ := (eraseKey_sublist _ _).subset hq
        have hne : q.2 ≠ cid := by
          intro he
          have h2 := hdir2 q hqmem
          rw [he, hfind] at h2
          have hq1 : q.1 = cd.data_fd := by
            injection h2 with h2
            exact h2.symm
          apply not_mem_eraseKey_self (k := cd.data_fd) (v := q.2) hnd2
          have : q = (cd.data_fd, q.2) := by
            apply Prod.ext <;> simp [hq1]
          exact this ▸ hq
        rw [findValue_eraseKey_ne hne]
        exact hdir2 q hqmem

instance (ep : Endpoint) : Decidable ep.consistentMaps := by
  unfold Endpoint.consistentMaps
  infer_instance

/-- C1: for every sequence of channel register (`OnNewChannelLocked`, reached
from `OnNewChannel`, `AcceptConnection` and `PushChannel`) and close
(`CloseChannel`/`CloseChannelLocked`) operations whose registered socket fds
are fresh, the forward map `channels_` and the reverse map `channel_fd_to_id_`
stay mutually consistent after each operation (at every prefix of the
sequence), with no dangling entries in either direction, even when epoll
deregistration fails during a close. -/
theorem claim_C1_channel_maps_consistent (ep : Endpoint) (ops : List TableOp)
    (hwf : ep.consistentMaps) (hfresh : freshOps ep ops = true) (n : Nat) :
    (ep.runTableOps (ops.take n)).consistentMaps := by
  induction ops generalizing ep n with
  | nil =>
    simp only [List.take_nil, Endpoint.runTableOps]
    exact hwf
  | cons op ops ih =>
    cases n with
    | zero =>
      simp only [List.take_zero, Endpoint.runTableOps]
      exact hwf
    | succ n =>
      rw [freshOps, Bool.and_eq_true] at hfresh
      simp only [List.take_succ_cons, Endpoint.runTableOps]
      exact ih _ (consistentMaps_runTableOp hwf hfresh.1) hfresh.2 n

/-- Concrete run of C1: two registrations (one with a failing epoll add), a
successful close and a close whose epoll deregistration fails, from a fresh
endpoint. -/
theorem claim_C1_channel_maps_consistent_witness :
    (initialEndpoint 3 4).consistentMaps ∧
    freshOps (initialEndpoint 3 4)
      [TableOp.register none 5 6 none, TableOp.register (some 1) 9 10 none,
       TableOp.register none 11 12 (some 7), TableOp.close (some 9) 1,
       TableOp.close none 2] = true ∧
    ((initialEndpoint 3 4).runTableOps
      (([TableOp.register none 5 6 none, TableOp.register (some 1) 9 10 none,
         TableOp.register none 11 12 (some 7), TableOp.close (some 9) 1,
         TableOp.close none 2]).take 5)).consistentMaps :=
  ⟨by decide, by decide,
    claim_C1_channel_maps_consistent (initialEndpoint 3 4) _ (by decide)
      (by decide) 5⟩

/-- C9: channel id allocation in `OnNewChannelLocked` scans upward from the
rolling counter `last_channel_id_` (wrapping past `int32Max` back to 1): a
successful registration assigns an id that is not currently present in
`channels_` (so an id is never reused while its channel is open, and after
wraparound an id is reassigned only once freed), the id is never 0 and always
lies in `[1, int32Max]`, and the rolling counter is left at the assigned id. -/
theorem claim_C9_channel_id_allocation (ep : Endpoint)
    (epollAddErr : Option Int) (fd ev : Int) (cs : Option Nat)
    (id : Int) (ep2 : Endpoint)
    (h0 : 0 ≤ ep.last_channel_id_) (h1 : ep.last_channel_id_ ≤ int32Max)
    (h : ep.onNewChannelLocked epollAddErr fd ev cs = .ok (id, ep2)) :
    findValue id ep.channels_ = none ∧ id ≠ 0 ∧ 1 ≤ id ∧ id ≤ int32Max ∧
    ep2.last_channel_id_ = id := by
  cases epollAddErr with
  | some e => simp [Endpoint.onNewChannelLocked] at h
  | none =>
    rw [Endpoint.onNewChannelLocked] at h
    cases hfind : findFreeChannelId ep.channels_ ep.last_channel_id_ channelIdFuel with
    | none => rw [hfind] at h; simp at h
    | some id0 =>
      rw [hfind] at h
      simp only [Except.ok.injEq, Prod.mk.injEq] at h
      obtain ⟨hid, hep2⟩ := h
      subst hid
      obtain ⟨hb1, hb2⟩ := findFreeChannelId_bounds hfind h0 h1
      refine ⟨findFreeChannelId_not_in_table hfind, by omega, hb1, hb2, ?_⟩
      rw [← hep2]

/-- Concrete run of C9: registering a socket on a fresh endpoint assigns
channel id 1. -/
theorem claim_C9_channel_id_allocation_witness :
    findValue 1 (initialEndpoint 3 4).channels_ = none ∧ (1 : Int) ≠ 0 ∧
    (1 : Int) ≤ 1 ∧ (1 : Int) ≤ int32Max ∧
    ({ initialEndpoint 3 4 with
        channels_ := [(1, ⟨5, 6, none⟩)],
        channel_fd_to_id_ := [(5, 1)],
        last_channel_id_ := 1 } : Endpoint).last_channel_id_ = 1 :=
  claim_C9_channel_id_allocation (initialEndpoint 3 4) none 5 6 none 1 _
    (by decide) (by decide) rfl

/-- Modelled from the spec: the reserved opcode `CHANNEL_OPEN` declared in
`pdx/service.h`, which is not among the sources (reply carries the new
channel's event handle instead of application payload). -/
def CHANNEL_OPEN : Int := -1

/-- Modelled from the spec: the reserved opcode `CHANNEL_CLOSE` declared in
`pdx/service.h`, which is not among the sources (synthesized locally, signals
channel teardown to the service). -/
def CHANNEL_CLOSE : Int := -2

/-- Modelled from the spec: `Message::IMPULSE_MESSAGE_ID` declared in
`pdx/service.h`, which is not among the sources — the reserved sentinel
message id shared by all impulses. -/
def IMPULSE_MESSAGE_ID : Int := -1

/-- One channel reference travelling in a header: a (data fd, event fd) pair
(`ChannelInfo` from `uds/channel_manager.h`). -/
structure ChannelInfo where
  data_fd : Int
  event_fd : Int
deriving DecidableEq

/-- Modelled from the spec: the wire request header declared in
`uds/ipc_helper.h`, which is not among the sources — kernel credential
triple, opcode, declared send / max receive lengths, impulse flag with its
fixed-size inline payload, and the inbound file-descriptor and channel
reference lists. -/
structure RequestHeader where
  op : Int
  cred_pid : Int
  cred_uid : Int
  cred_gid : Int
  send_len : Nat
  max_recv_len : Nat
  is_impulse : Bool
  impulse_payload : List Nat
  file_descriptors : List Int
  channels : List ChannelInfo
deriving DecidableEq

/-- Modelled from the spec: the wire response header declared in
`uds/ipc_helper.h`, which is not among the sources — return code, response
length, outbound file-descriptor and channel reference lists. -/
structure ResponseHeader where
  ret_code : Int
  recv_len : Nat
  file_descriptors : List Int
  channels : List ChannelInfo
deriving DecidableEq

/-- Default-constructed request header. -/
def emptyRequest : RequestHeader :=
  { op := 0, cred_pid := 0, cred_uid := 0, cred_gid := 0, send_len := 0,
    max_recv_len := 0, is_impulse := false, impulse_payload := [],
    file_descriptors := [], channels := [] }

/-- Default-constructed response header. -/
def emptyResponse : ResponseHeader :=
  { ret_code := 0, recv_len := 0, file_descriptors := [], channels := [] }

/-- The per-message scratch state `MessageState` (anonymous namespace of
`service_endpoint.cpp`): inbound header with its handle lists, outbound
header being built, payload buffers, read cursor, and the sockets to close
after the reply is sent.  Handles are raw fd values; -1 is the invalid
(moved-from / default-constructed) handle. -/
structure MessageState where
  request : RequestHeader
  response : ResponseHeader
  sockets_to_close : List Int
  request_data : List Nat
  request_data_read_pos : Nat
  response_data : List Nat
deriving DecidableEq

/-- Freshly allocated `MessageState` (`Endpoint::AllocateMessageState`). -/
def emptyMessageState : MessageState :=
  { request := emptyRequest, response := emptyResponse, sockets_to_close := [],
    request_data := [], request_data_read_pos := 0, response_data := [] }

/-- Source `MessageState::GetLocalFileHandle`: a negative index resets the handle to
carry that value verbatim; an in-range index moves the handle out of
`request.file_descriptors` (the slot is left holding the invalid fd -1, as a
moved-from `LocalHandle`); an out-of-range index fails (`none`, the C++
`return false`) touching nothing. -/
def MessageState.getLocalFileHandle (st : MessageState) (index : Int) :
    Option (Int × MessageState) :=
  if index < 0 then
    some (index, st)
  else if h : index.toNat < st.request.file_descriptors.length then
    some (st.request.file_descriptors.get ⟨index.toNat, h⟩,
      { st with request := { st.request with
          file_descriptors := st.request.file_descriptors.set index.toNat (-1) } })
  else
    none

/-- Source `MessageState::GetLocalChannelHandle`: a negative index yields a channel
handle carrying that value verbatim (`LocalChannelHandle{nullptr, index}`); an
in-range index moves both fds out of `request.channels[index]` and hands them
to `ChannelManager::Get().CreateHandle` (modelled from the spec: the created
handle's carried value is the channel's data fd; `channel_manager.cpp` is not
among the sources); out of range fails (`none`). -/
def MessageState.getLocalChannelHandle (st : MessageState) (index : Int) :
    Option (Int × MessageState) :=
  if index < 0 then
    some (index, st)
  else if h : index.toNat < st.request.channels.length then
    some ((st.request.channels.get ⟨index.toNat, h⟩).data_fd,
      { st with request := { st.request with
          channels := st.request.channels.set index.toNat ⟨-1, -1⟩ } })
  else
    none

/-- Source `MessageState::PushFileHandle`: an invalid handle is returned as its own
carried value without touching the outbound list; a valid handle is appended
to `response.file_descriptors` and its index returned.  (The C++ `Status` is
a success in both cases.) -/
def MessageState.pushFileHandle (st : MessageState) (handle : Int) :
    Int × MessageState :=
  if handle < 0 then (handle, st)
  else ((st.response.file_descriptors.length : Int),
    { st with response := { st.response with
        file_descriptors := st.response.file_descriptors ++ [handle] } })

/-- The message-id fields `MessageInfo` visible to the service. -/
structure MessageInfo where
  pid : Int
  tid : Int
  cid : Int
  mid : Int
  euid : Int
  egid : Int
  op : Int
  flags : Int
  service : Option Nat
  channel : Option Nat
  send_len : Nat
  recv_len : Nat
  fd_count : Nat
  impulse : List Nat
deriving DecidableEq

/-- A message together with its per-message state. -/
structure Message where
  info : MessageInfo
  state : MessageState
deriving DecidableEq

/-- Source `Endpoint::GetFileHandle`: delegates to
`MessageState::GetLocalFileHandle`; on failure the default-constructed
`LocalHandle` (value -1) is returned and the message is untouched. -/
def Endpoint.getFileHandle (msg : Message) (ref : Int) : Int × Message :=
  match msg.state.getLocalFileHandle ref with
  | some (h, st2) => (h, { msg with state := st2 })
  | none => (-1, msg)

/-- Source `Endpoint::GetChannelHandle`: delegates to
`MessageState::GetLocalChannelHandle`; on failure the default-constructed
`LocalChannelHandle` (value -1) is returned and the message is untouched. -/
def Endpoint.getChannelHandle (msg : Message) (ref : Int) : Int × Message :=
  match msg.state.getLocalChannelHandle ref with
  | some (h, st2) => (h, { msg with state := st2 })
  | none => (-1, msg)

/-- Source `Endpoint::GetChannelId`: reverse-map lookup, -1 when unknown. -/
def Endpoint.getChannelId (ep : Endpoint) (channel_fd : Int) : Int :=
  match findValue channel_fd ep.channel_fd_to_id_ with
  | some id => id
  | none => -1

/-- Source `Endpoint::GetChannelState`: the opaque service state, `nullptr` (none)
when the id is unknown. -/
def Endpoint.getChannelState (ep : Endpoint) (channel_id : Int) : Option Nat :=
  match findValue channel_id ep.channels_ with
  | some cd => cd.channel_state
  | none => none

/-- Source `Endpoint::GetChannelSocketFd`: the channel's socket fd, or the invalid
borrowed handle (-1) when the id is unknown. -/
def Endpoint.getChannelSocketFd (ep : Endpoint) (channel_id : Int) : Int :=
  match findValue channel_id ep.channels_ with
  | some cd => cd.data_fd
  | none => -1

/-- Source `Endpoint::GetChannelEventFd`: the channel event set's event fd, or the
invalid borrowed handle (-1) when the id is unknown. -/
def Endpoint.getChannelEventFd (ep : Endpoint) (channel_id : Int) : Int :=
  match findValue channel_id ep.channels_ with
  | some cd => cd.event_fd
  | none => -1

/-- Modelled from the spec: `Endpoint::GetNextAvailableMessageId` (declared in
`uds/service_endpoint.h`, not among the sources) — message ids increase
monotonically per endpoint. -/
def Endpoint.getNextAvailableMessageId (ep : Endpoint) : Int × Endpoint :=
  (ep.next_message_id_, { ep with next_message_id_ := ep.next_message_id_ + 1 })

/-- Source `Endpoint::BuildCloseMessage`: synthesize a `CHANNEL_CLOSE` message for a
channel, with a freshly allocated message id and no payload. -/
def Endpoint.buildCloseMessage (ep : Endpoint) (channel_id : Int) :
    Message × Endpoint :=
  let (mid, ep2) := ep.getNextAvailableMessageId
  let info : MessageInfo :=
    { pid := -1, tid := -1, cid := channel_id, mid := mid, euid := -1,
      egid := -1, op := CHANNEL_CLOSE, flags := 0, service := ep.service_,
      channel := ep2.getChannelState channel_id, send_len := 0, recv_len := 0,
      fd_count := 0, impulse := [] }
  ({ info := info, state := emptyMessageState }, ep2)

/-- One external action performed by the endpoint, in order. -/
inductive Action where
  | recvHeader (fd : Int)
  | recvPayload (fd : Int) (len : Nat)
  | rearm (fd : Int)
  | accept
  | setPasscred (fd : Int)
  | epollAdd (fd : Int)
  | sendHeader (fd : Int) (ret_code : Int) (recv_len : Nat)
  | sendPayload (fd : Int) (len : Nat)
deriving DecidableEq

/-- Decidable equality for syscall outcomes. -/
def Except.decEq [DecidableEq ε] [DecidableEq α] :
    (a b : Except ε α) → Decidable (a = b)
  | .error x, .error y =>
    if h : x = y then .isTrue (by rw [h])
    else .isFalse (by intro hc; injection hc; contradiction)
  | .error _, .ok _ => .isFalse (by intro hc; exact Except.noConfusion hc)
  | .ok _, .error _ => .isFalse (by intro hc; exact Except.noConfusion hc)
  | .ok x, .ok y =>
    if h : x = y then .isTrue (by rw [h])
    else .isFalse (by intro hc; injection hc; contradiction)

instance [DecidableEq ε] [DecidableEq α] : DecidableEq (Except ε α) :=
  Except.decEq

/-- Syscall outcomes consumed by one `ReceiveMessageForChannel` call: the
header `ReceiveData`, the payload `ReceiveData`, the impulse re-arm
`epoll_ctl(MOD)`, and (only on the teardown path) the
`epoll_ctl(DEL)` inside `CloseChannel`. -/
structure RecvOracle where
  headerResult : Except Int RequestHeader
  payloadResult : Except Int (List Nat)
  rearmErr : Option Int
  closeEpollDelErr : Option Int
deriving DecidableEq

/-- Source `Endpoint::ReceiveMessageForChannel`: read the fixed-format header; on
`ESHUTDOWN` synthesize a close message and succeed, on any other error close
the channel and propagate.  Otherwise populate the message (impulses get the
sentinel id and skip the payload read), read the declared payload for
non-impulse requests, re-arm the channel immediately for impulses, and apply
the same `ESHUTDOWN` / teardown policy to a failure of those two steps. -/
def Endpoint.receiveMessageForChannel (ep : Endpoint) (o : RecvOracle)
    (channel_fd : Int) (msg0 : Message) :
    Except Int Unit × Message × Endpoint × List Action :=
  let channel_id := ep.getChannelId channel_fd
  match o.headerResult with
  | .error e =>
    if e = ESHUTDOWN then
      let (msg, ep2) := ep.buildCloseMessage channel_id
      (.ok (), msg, ep2, [.recvHeader channel_fd])
    else
      let ep2 := (ep.closeChannelLocked o.closeEpollDelErr channel_id).2
      (.error e, msg0, ep2, [.recvHeader channel_fd])
  | .ok request =>
    let (mid, ep2) :=
      if request.is_impulse then (IMPULSE_MESSAGE_ID, ep)
      else ep.getNextAvailableMessageId
    let info : MessageInfo :=
      { pid := request.cred_pid, tid := -1, cid := channel_id, mid := mid,
        euid := request.cred_uid, egid := request.cred_gid, op := request.op,
        flags := 0, service := ep2.service_,
        channel := ep2.getChannelState channel_id,
        send_len := request.send_len, recv_len := request.max_recv_len,
        fd_count := request.file_descriptors.length,
        impulse := request.impulse_payload }
    let msg1 : Message :=
      { info := info, state := { emptyMessageState with request := request } }
    let payloadStep : Except Int Unit × Message × List Action :=
      if 0 < request.send_len ∧ ¬ request.is_impulse then
        match o.payloadResult with
        | .ok data =>
          (.ok (), { msg1 with state := { msg1.state with request_data := data } },
            [.recvPayload channel_fd request.send_len])
        | .error e =>
          (.error e, msg1, [.recvPayload channel_fd request.send_len])
      else (.ok (), msg1, [])
    let msg2 := payloadStep.2.1
    let rearmStep : Except Int Unit × List Action :=
      match payloadStep.1 with
      | .ok _ =>
        if request.is_impulse then
          match o.rearmErr with
          | none => (.ok (), payloadStep.2.2 ++ [Action.rearm channel_fd])
          | some e => (.error e, payloadStep.2.2 ++ [Action.rearm channel_fd])
        else (.ok (), payloadStep.2.2)
      | .error e => (.error e, payloadStep.2.2)
    match rearmStep.1 with
    | .ok _ => (.ok (), msg2, ep2, Action.recvHeader channel_fd :: rearmStep.2)
    | .error e =>
      if e = ESHUTDOWN then
        let (msgc, ep3) := ep2.buildCloseMessage channel_id
        (.ok (), msgc, ep3, Action.recvHeader channel_fd :: rearmStep.2)
      else
        let ep3 := (ep2.closeChannelLocked o.closeEpollDelErr channel_id).2
        (.error e, msg2, ep3, Action.recvHeader channel_fd :: rearmStep.2)

/-- Syscall outcomes consumed by one `AcceptConnection` call: `accept4`
(returning the new channel fd), `setsockopt(SO_PASSCRED)`, the
`epoll_ctl(ADD)` inside `OnNewChannel`, and the eventfd created inside the
new `ChannelData`'s event set. -/
structure AcceptOracle where
  acceptResult : Except Int Int
  passcredErr : Option Int
  epollAddErr : Option Int
  event_fd : Int
deriving DecidableEq

/-- Source `Endpoint::AcceptConnection`: accept one pending connection, enable
credential passing on the new socket, register it via `OnNewChannel`, then
immediately read a request from it via `ReceiveMessageForChannel`. -/
def Endpoint.acceptConnection (ep : Endpoint) (ao : AcceptOracle)
    (ro : RecvOracle) (msg0 : Message) :
    Except Int Unit × Message × Endpoint × List Action :=
  match ao.acceptResult with
  | .error e => (.error e, msg0, ep, [.accept])
  | .ok channel_fd =>
    match ao.passcredErr with
    | some e => (.error e, msg0, ep, [.accept, .setPasscred channel_fd])
    | none =>
      match ep.onNewChannelLocked ao.epollAddErr channel_fd ao.event_fd none with
      | .error e =>
        (.error e, msg0, ep,
          [.accept, .setPasscred channel_fd, .epollAdd channel_fd])
      | .ok (_, ep2) =>
        let r := ep2.receiveMessageForChannel ro channel_fd msg0
        (r.1, r.2.1, r.2.2.1,
          [Action.accept, Action.setPasscred channel_fd,
           Action.epollAdd channel_fd] ++ r.2.2.2)

/-- What `epoll_wait` returned: a syscall error, no event (non-blocking and
idle), or exactly one event for fd `fd` with its `EPOLLRDHUP`/`EPOLLHUP` bit. -/
inductive WaitResult where
  | waitError (e : Int)
  | timeout
  | event (fd : Int) (hup : Bool)
deriving DecidableEq

/-- All syscall outcomes one `MessageReceive` call may consume. -/
structure WaitOracle where
  wait : WaitResult
  acc : AcceptOracle
  recv : RecvOracle
  listenRearmErr : Option Int
deriving DecidableEq

/-- Source `Endpoint::MessageReceive`: wait for at most one epoll event; dispatch on
the cancel eventfd, the listening socket (accept path, re-arming the listening
socket only after a fully successful accept), a hang-up flag (synthesize a
close message without reading), or a readable channel. -/
def Endpoint.messageReceive (ep : Endpoint) (o : WaitOracle) (msg0 : Message) :
    Except Int Unit × Message × Endpoint × List Action :=
  match o.wait with
  | .waitError e => (.error e, msg0, ep, [])
  | .timeout => (.error ETIMEDOUT, msg0, ep, [])
  | .event fd hup =>
    if fd = ep.cancel_event_fd_ then (.error ESHUTDOWN, msg0, ep, [])
    else if fd = ep.socket_fd_ then
      let r := ep.acceptConnection o.acc o.recv msg0
      match r.1 with
      | .error e => (.error e, r.2.1, r.2.2.1, r.2.2.2)
      | .ok _ =>
        let st2 : Except Int Unit :=
          match o.listenRearmErr with
          | none => .ok ()
          | some e => .error e
        (st2, r.2.1, r.2.2.1, r.2.2.2 ++ [Action.rearm ep.socket_fd_])
    else if hup then
      let (msg, ep2) := ep.buildCloseMessage (ep.getChannelId fd)
      (.ok (), msg, ep2, [])
    else
      ep.receiveMessageForChannel o.recv fd msg0

/-- Syscall outcomes consumed by one `MessageReply` call: the header
`SendData`, the payload `SendData`, the closing re-arm `epoll_ctl(MOD)`, and
(only on the close paths) the `epoll_ctl(DEL)` inside `CloseChannel`. -/
structure ReplyOracle where
  sendHeaderErr : Option Int
  sendPayloadErr : Option Int
  rearmErr : Option Int
  closeEpollDelErr : Option Int
deriving DecidableEq

/-- Source `Endpoint::MessageReply`: fail with `EBADF` if the channel socket is
gone; `CHANNEL_CLOSE` closes the channel with no bytes written;
`CHANNEL_OPEN` with a negative return code closes the channel;
`CHANNEL_OPEN` with a non-negative return code discards the queued response
payload, pushes the channel's event fd as a reply file reference and uses
its index as the return code; then the response header (and payload bytes,
when non-empty) are sent and the channel is re-armed after a successful
write. -/
def Endpoint.messageReply (ep : Endpoint) (o : ReplyOracle) (msg : Message)
    (return_code : Int) :
    Except Int Unit × Message × Endpoint × List Action :=
  let channel_id := msg.info.cid
  let channel_socket := ep.getChannelSocketFd channel_id
  if channel_socket < 0 then (.error EBADF, msg, ep, [])
  else if msg.info.op = CHANNEL_CLOSE then
    let r := ep.closeChannelLocked o.closeEpollDelErr channel_id
    (r.1, msg, r.2, [])
  else if msg.info.op = CHANNEL_OPEN ∧ return_code < 0 then
    let r := ep.closeChannelLocked o.closeEpollDelErr channel_id
    (r.1, msg, r.2, [])
  else
    let step : Int × Message :=
      if msg.info.op = CHANNEL_OPEN then
        let p := msg.state.pushFileHandle (ep.getChannelEventFd channel_id)
        (p.1, { msg with state := { p.2 with response_data := [] } })
      else (return_code, msg)
    let rc := step.1
    let msg3 : Message := { step.2 with state := { step.2.state with
      response := { step.2.state.response with
        ret_code := rc, recv_len := step.2.state.response_data.length } } }
    let trH := [Action.sendHeader channel_socket rc
      msg3.state.response_data.length]
    match o.sendHeaderErr with
    | some e => (.error e, msg3, ep, trH)
    | none =>
      let payloadSend : Except Int Unit × List Action :=
        if msg3.state.response_data.isEmpty then (.ok (), trH)
        else
          match o.sendPayloadErr with
          | some e =>
            (.error e, trH ++
              [Action.sendPayload channel_socket msg3.state.response_data.length])
          | none =>
            (.ok (), trH ++
              [Action.sendPayload channel_socket msg3.state.response_data.length])
      match payloadSend.1 with
      | .error e => (.error e, msg3, ep, payloadSend.2)
      | .ok _ =>
        match o.rearmErr with
        | some e =>
          (.error e, msg3, ep, payloadSend.2 ++ [Action.rearm channel_socket])
        | none =>
          (.ok (), msg3, ep, payloadSend.2 ++ [Action.rearm channel_socket])

/-- A default-constructed message (used as the out-parameter value before a
receive call fills it in). -/
def emptyMessage : Message :=
  { info :=
      { pid := 0, tid := 0, cid := 0, mid := 0, euid := 0, egid := 0,
        op := 0, flags := 0, service := none, channel := none, send_len := 0,
        recv_len := 0, fd_count := 0, impulse := [] },
    state := emptyMessageState }

/-- C7: pulling a non-negative reference at or beyond the length of the
corresponding inbound handle list fails — `MessageState::GetLocalFileHandle` /
`GetLocalChannelHandle` return false without touching anything, and the
endpoint-level `GetFileHandle` / `GetChannelHandle` return the
default-constructed invalid handle with the message unchanged; being total
functions, they access nothing out of bounds. -/
theorem claim_C7_out_of_range_pull_fails (msg : Message) (index : Int)
    (hnonneg : 0 ≤ index) :
    (msg.state.request.file_descriptors.length ≤ index.toNat →
      msg.state.getLocalFileHandle index = none ∧
      Endpoint.getFileHandle msg index = (-1, msg)) ∧
    (msg.state.request.channels.length ≤ index.toNat →
      msg.state.getLocalChannelHandle index = none ∧
      Endpoint.getChannelHandle msg index = (-1, msg)) := by
  have hneg : ¬ index < 0 := not_lt.mpr hnonneg
  constructor
  · intro hlen
    have hlt : ¬ index.toNat < msg.state.request.file_descriptors.length := by
      omega
    refine ⟨?_, ?_⟩
    · simp [MessageState.getLocalFileHandle, hneg, hlt]
    · simp [Endpoint.getFileHandle, MessageState.getLocalFileHandle, hneg, hlt]
  · intro hlen
    have hlt : ¬ index.toNat < msg.state.request.channels.length := by omega
    refine ⟨?_, ?_⟩
    · simp [MessageState.getLocalChannelHandle, hneg, hlt]
    · simp [Endpoint.getChannelHandle, MessageState.getLocalChannelHandle,
        hneg, hlt]

/-- Concrete run of C7: index 0 on a message with empty inbound lists. -/
theorem claim_C7_out_of_range_pull_fails_witness :
    ((0 : Int) ≤ 0) ∧
    (emptyMessage.state.request.file_descriptors.length ≤ (0 : Int).toNat →
      emptyMessage.state.getLocalFileHandle 0 = none ∧
      Endpoint.getFileHandle emptyMessage 0 = (-1, emptyMessage)) :=
  ⟨by decide, (claim_C7_out_of_range_pull_fails emptyMessage 0 (by decide)).1⟩

/-- C8: pulling a reference with a negative value yields a sentinel handle
carrying exactly that value, verbatim, with the per-message state (and so the
inbound handle lists) untouched. -/
theorem claim_C8_negative_ref_sentinel (msg : Message) (v : Int) (hv : v < 0) :
    msg.state.getLocalFileHandle v = some (v, msg.state) ∧
    msg.state.getLocalChannelHandle v = some (v, msg.state) ∧
    Endpoint.getFileHandle msg v = (v, msg) ∧
    Endpoint.getChannelHandle msg v = (v, msg) := by
  refine ⟨?_, ?_, ?_, ?_⟩
  · simp [MessageState.getLocalFileHandle, hv]
  · simp [MessageState.getLocalChannelHandle, hv]
  · simp [Endpoint.getFileHandle, MessageState.getLocalFileHandle, hv]
  · simp [Endpoint.getChannelHandle, MessageState.getLocalChannelHandle, hv]

/-- Concrete run of C8 at the sentinel value -3. -/
theorem claim_C8_negative_ref_sentinel_witness :
    (-3 : Int) < 0 ∧
    emptyMessage.state.getLocalFileHandle (-3) = some (-3, emptyMessage.state) ∧
    emptyMessage.state.getLocalChannelHandle (-3) =
      some (-3, emptyMessage.state) ∧
    Endpoint.getFileHandle emptyMessage (-3) = (-3, emptyMessage) ∧
    Endpoint.getChannelHandle emptyMessage (-3) = (-3, emptyMessage) :=
  ⟨by decide, claim_C8_negative_ref_sentinel emptyMessage (-3) (by decide)⟩

/-- C10: pulling a file reference is destructive.  If the first
`GetFileHandle` at a non-negative index returns a valid handle, that handle
has been moved out of the inbound list (the slot is left invalid), and a
second `GetFileHandle` at the same index on the same message returns the
invalid handle -1, not the original one. -/
theorem claim_C10_file_pull_destructive (msg msg1 : Message) (i h1 : Int)
    (h0 : 0 ≤ i) (hfirst : Endpoint.getFileHandle msg i = (h1, msg1))
    (hvalid : 0 ≤ h1) :
    msg1.state.request.file_descriptors =
      msg.state.request.file_descriptors.set i.toNat (-1) ∧
    (Endpoint.getFileHandle msg1 i).1 = -1 ∧
    (Endpoint.getFileHandle msg1 i).1 ≠ h1 := by
  have hneg : ¬ i < 0 := not_lt.mpr h0
  by_cases hlt : i.toNat < msg.state.request.file_descriptors.length
  · rw [Endpoint.getFileHandle] at hfirst
    rw [MessageState.getLocalFileHandle, if_neg hneg, dif_pos hlt] at hfirst
    simp only [Prod.mk.injEq] at hfirst
    obtain ⟨hh1, hmsg1⟩ := hfirst
    subst hmsg1
    have hlt2 : i.toNat <
        (msg.state.request.file_descriptors.set i.toNat (-1)).length := by
      simpa using hlt
    have hsecond : (Endpoint.getFileHandle
        ({ msg with state := { msg.state with request := { msg.state.request with
          file_descriptors :=
            msg.state.request.file_descriptors.set i.toNat (-1) } } }) i).1
        = -1 := by
      simp only [Endpoint.getFileHandle, MessageState.getLocalFileHandle,
        if_neg hneg]
      rw [dif_pos hlt2]
      simp [List.get_eq_getElem, List.getElem_set]
    refine ⟨rfl, hsecond, ?_⟩
    rw [hsecond]
    intro hc
    rw [← hc] at hvalid
    omega
  · exfalso
    rw [Endpoint.getFileHandle] at hfirst
    rw [MessageState.getLocalFileHandle, if_neg hneg, dif_neg hlt] at hfirst
    simp only [Prod.mk.injEq] at hfirst
    rw [← hfirst.1] at hvalid
    omega

/-- A message carrying a single inbound file descriptor. -/
def msgWithFd (fd : Int) : Message :=
  { emptyMessage with state := { emptyMessageState with
      request := { emptyRequest with file_descriptors := [fd] } } }

/-- Concrete run of C10: a message carrying one inbound fd (42); the first
pull at index 0 returns it, the second returns the invalid handle. -/
theorem claim_C10_file_pull_destructive_witness :
    ((0 : Int) ≤ 0) ∧ ((0 : Int) ≤ 42) ∧
    ((msgWithFd (-1)).state.request.file_descriptors =
       (msgWithFd 42).state.request.file_descriptors.set (0 : Int).toNat (-1) ∧
     (Endpoint.getFileHandle (msgWithFd (-1)) 0).1 = -1 ∧
     (Endpoint.getFileHandle (msgWithFd (-1)) 0).1 ≠ 42) :=
  ⟨by decide, by decide,
    claim_C10_file_pull_destructive (msgWithFd 42) (msgWithFd (-1)) 0 42
      (by decide) rfl (by decide)⟩

/-- C2: `MessageReply` on a `CHANNEL_OPEN` message with a non-negative return
code discards any queued response payload, pushes the channel's own event fd
as the single reply file reference (when no reference was queued before), and
sends as return code the index of that reference (0); the channel is not
closed by this reply — the endpoint state is untouched. -/
theorem claim_C2_channel_open_reply (ep : Endpoint) (o : ReplyOracle)
    (msg : Message) (return_code : Int) (cd : ChannelData)
    (hop : msg.info.op = CHANNEL_OPEN)
    (hrc : 0 ≤ return_code)
    (hch : findValue msg.info.cid ep.channels_ = some cd)
    (hsock : 0 ≤ cd.data_fd) (hev : 0 ≤ cd.event_fd)
    (hempty : msg.state.response.file_descriptors = []) :
    (ep.messageReply o msg return_code).2.1.state.response_data = [] ∧
    (ep.messageReply o msg return_code).2.1.state.response.file_descriptors =
      [cd.event_fd] ∧
    (ep.messageReply o msg return_code).2.1.state.response.ret_code = 0 ∧
    (ep.messageReply o msg return_code).2.2.2.head? =
      some (Action.sendHeader cd.data_fd 0 0) ∧
    (ep.messageReply o msg return_code).2.2.1 = ep := by
  have hsockfd : ep.getChannelSocketFd msg.info.cid = cd.data_fd := by
    simp [Endpoint.getChannelSocketFd, hch]
  have hevfd : ep.getChannelEventFd msg.info.cid = cd.event_fd := by
    simp [Endpoint.getChannelEventFd, hch]
  have hrc2 : ¬ return_code < 0 := not_lt.mpr hrc
  have hev2 : ¬ cd.event_fd < 0 := not_lt.mpr hev
  have hsock2 : ¬ cd.data_fd < 0 := not_lt.mpr hsock
  cases hs : o.sendHeaderErr with
  | some e =>
    simp [Endpoint.messageReply, hsockfd, hevfd, hop, hsock2, hrc2, hev2,
      CHANNEL_OPEN, CHANNEL_CLOSE, MessageState.pushFileHandle, hempty, hs]
  | none =>
    cases hr : o.rearmErr with
    | some e2 =>
      simp [Endpoint.messageReply, hsockfd, hevfd, hop, hsock2, hrc2, hev2,
        CHANNEL_OPEN, CHANNEL_CLOSE, MessageState.pushFileHandle, hempty, hs,
        hr]
    | none =>
      simp [Endpoint.messageReply, hsockfd, hevfd, hop, hsock2, hrc2, hev2,
        CHANNEL_OPEN, CHANNEL_CLOSE, MessageState.pushFileHandle, hempty, hs,
        hr]

/-- An endpoint with one registered channel (id 1, socket fd 5, event fd 6). -/
def epWithChannel : Endpoint :=
  { channels_ := [(1, ⟨5, 6, none⟩)], channel_fd_to_id_ := [(5, 1)],
    last_channel_id_ := 1, next_message_id_ := 0, socket_fd_ := 3,
    cancel_event_fd_ := 4, service_ := none }

/-- A fresh `CHANNEL_OPEN` message on channel 1. -/
def openMsg : Message :=
  { emptyMessage with
      info := { emptyMessage.info with op := CHANNEL_OPEN, cid := 1 } }

/-- A reply oracle where every syscall succeeds. -/
def allOkReply : ReplyOracle :=
  { sendHeaderErr := none, sendPayloadErr := none, rearmErr := none,
    closeEpollDelErr := none }

/-- Concrete run of C2: replying 0 to a `CHANNEL_OPEN` on channel 1 of
`epWithChannel`. -/
theorem claim_C2_channel_open_reply_witness :
    openMsg.info.op = CHANNEL_OPEN ∧
    findValue openMsg.info.cid epWithChannel.channels_ =
      some ⟨5, 6, none⟩ ∧
    ((epWithChannel.messageReply allOkReply openMsg 0).2.1.state.response_data
        = [] ∧
     (epWithChannel.messageReply allOkReply openMsg
        0).2.1.state.response.file_descriptors = [6] ∧
     (epWithChannel.messageReply allOkReply openMsg
        0).2.1.state.response.ret_code = 0 ∧
     (epWithChannel.messageReply allOkReply openMsg 0).2.2.2.head? =
       some (Action.sendHeader 5 0 0) ∧
     (epWithChannel.messageReply allOkReply openMsg 0).2.2.1 = epWithChannel) :=
  ⟨by decide, by decide,
    claim_C2_channel_open_reply epWithChannel allOkReply openMsg 0 ⟨5, 6, none⟩
      (by decide) (by decide) (by decide) (by decide) (by decide) (by decide)⟩

theorem eraseKey_eq_of_findValue_none {k : Int} {m : List (Int × α)}
    (h : findValue k m = none) : eraseKey k m = m := by
  induction m with
  | nil => rfl
  | cons p rest ih =>
    obtain ⟨k0, v0⟩ := p
    by_cases hk : k0 = k
    · simp [findValue, hk] at h
    · simp [findValue, hk] at h
      simp [eraseKey, hk, ih h]

theorem closeChannelLocked_channels (ep : Endpoint) (e : Option Int)
    (id : Int) :
    ((ep.closeChannelLocked e id).2).channels_ = eraseKey id ep.channels_ := by
  cases hfind : findValue id ep.channels_ with
  | none =>
    simp [Endpoint.closeChannelLocked, hfind,
      eraseKey_eq_of_findValue_none hfind]
  | some cd => simp [Endpoint.closeChannelLocked, hfind]

/-- C3: on a receive attempt for a registered channel, a header or payload
read failing with `ESHUTDOWN` makes `ReceiveMessageForChannel` synthesize a
`CHANNEL_CLOSE` message for that channel's id and succeed, leaving both
channel maps untouched; a read failing with any other error makes it tear the
channel down via `CloseChannel` (the channel's entry is erased) and return
that error to the caller. -/
theorem claim_C3_read_error_policy (ep : Endpoint) (o : RecvOracle)
    (channel_fd id : Int) (msg0 : Message)
    (hreg : findValue channel_fd ep.channel_fd_to_id_ = some id) :
    (∀ e, o.headerResult = .error e →
      (e = ESHUTDOWN →
        (ep.receiveMessageForChannel o channel_fd msg0).1 = .ok () ∧
        (ep.receiveMessageForChannel o channel_fd msg0).2.1.info.op =
          CHANNEL_CLOSE ∧
        (ep.receiveMessageForChannel o channel_fd msg0).2.1.info.cid = id ∧
        (ep.receiveMessageForChannel o channel_fd msg0).2.2.1.channels_ =
          ep.channels_ ∧
        (ep.receiveMessageForChannel o channel_fd
          msg0).2.2.1.channel_fd_to_id_ = ep.channel_fd_to_id_) ∧
      (e ≠ ESHUTDOWN →
        (ep.receiveMessageForChannel o channel_fd msg0).1 = .error e ∧
        (ep.receiveMessageForChannel o channel_fd msg0).2.2.1.channels_ =
          eraseKey id ep.channels_)) ∧
    (∀ req e2, o.headerResult = .ok req → 0 < req.send_len →
      req.is_impulse = false → o.payloadResult = .error e2 →
      (e2 = ESHUTDOWN →
        (ep.receiveMessageForChannel o channel_fd msg0).1 = .ok () ∧
        (ep.receiveMessageForChannel o channel_fd msg0).2.1.info.op =
          CHANNEL_CLOSE ∧
        (ep.receiveMessageForChannel o channel_fd msg0).2.1.info.cid = id ∧
        (ep.receiveMessageForChannel o channel_fd msg0).2.2.1.channels_ =
          ep.channels_) ∧
      (e2 ≠ ESHUTDOWN →
        (ep.receiveMessageForChannel o channel_fd msg0).1 = .error e2 ∧
        (ep.receiveMessageForChannel o channel_fd msg0).2.2.1.channels_ =
          eraseKey id ep.channels_)) := by
  have hid : ep.getChannelId channel_fd = id := by
    simp [Endpoint.getChannelId, hreg]
  constructor
  · intro e he
    constructor
    · intro hesh
      subst hesh
      simp [Endpoint.receiveMessageForChannel, he, hid,
        Endpoint.buildCloseMessage, Endpoint.getNextAvailableMessageId]
    · intro hne
      simp [Endpoint.receiveMessageForChannel, he, hid, hne,
        closeChannelLocked_channels]
  · intro req e2 hok hlen himp hp
    constructor
    · intro hesh
      subst hesh
      simp [Endpoint.receiveMessageForChannel, hok, hid, himp, hlen, hp,
        Endpoint.buildCloseMessage, Endpoint.getNextAvailableMessageId]
    · intro hne
      simp [Endpoint.receiveMessageForChannel, hok, hid, himp, hlen, hp, hne,
        closeChannelLocked_channels, Endpoint.getNextAvailableMessageId]

/-- A receive oracle whose header read reports the clean-shutdown error. -/
def shutdownRecv : RecvOracle :=
  { headerResult := .error ESHUTDOWN, payloadResult := .ok [],
    rearmErr := none, closeEpollDelErr := none }

/-- Concrete run of C3: reading from registered channel fd 5 of
`epWithChannel` when the peer has cleanly shut down. -/
theorem claim_C3_read_error_policy_witness :
    findValue 5 epWithChannel.channel_fd_to_id_ = some 1 ∧
    shutdownRecv.headerResult = .error ESHUTDOWN ∧
    ((epWithChannel.receiveMessageForChannel shutdownRecv 5 emptyMessage).1 =
        .ok () ∧
     (epWithChannel.receiveMessageForChannel shutdownRecv 5
        emptyMessage).2.1.info.op = CHANNEL_CLOSE ∧
     (epWithChannel.receiveMessageForChannel shutdownRecv 5
        emptyMessage).2.1.info.cid = 1 ∧
     (epWithChannel.receiveMessageForChannel shutdownRecv 5
        emptyMessage).2.2.1.channels_ = epWithChannel.channels_ ∧
     (epWithChannel.receiveMessageForChannel shutdownRecv 5
        emptyMessage).2.2.1.channel_fd_to_id_ =
          epWithChannel.channel_fd_to_id_) :=
  ⟨by decide, by decide,
    ((claim_C3_read_error_policy epWithChannel shutdownRecv 5 1 emptyMessage
      (by decide)).1 ESHUTDOWN (by decide)).1 rfl⟩

/-- C6: for a received request whose header has the impulse flag set, no
payload read is attempted beyond the fixed-format header (even when the
declared send length is positive — no `recvPayload` action occurs), the
channel's one-shot readiness is re-armed immediately after the header read
(the trace begins `recvHeader, rearm`), and when the re-arm succeeds the
resulting message's id is the reserved sentinel `IMPULSE_MESSAGE_ID` while
the monotonic message-id counter is left untouched. -/
theorem claim_C6_impulse_receive (ep : Endpoint) (o : RecvOracle)
    (channel_fd : Int) (msg0 : Message) (req : RequestHeader)
    (hhdr : o.headerResult = .ok req)
    (himp : req.is_impulse = true) :
    (∀ fd len, Action.recvPayload fd len ∉
      (ep.receiveMessageForChannel o channel_fd msg0).2.2.2) ∧
    (ep.receiveMessageForChannel o channel_fd msg0).2.2.2.take 2 =
      [Action.recvHeader channel_fd, Action.rearm channel_fd] ∧
    (o.rearmErr = none →
      (ep.receiveMessageForChannel o channel_fd msg0).1 = .ok () ∧
      (ep.receiveMessageForChannel o channel_fd msg0).2.1.info.mid =
        IMPULSE_MESSAGE_ID ∧
      (ep.receiveMessageForChannel o channel_fd msg0).2.2.1.next_message_id_ =
        ep.next_message_id_) := by
  cases hr : o.rearmErr with
  | none =>
    refine ⟨?_, ?_, ?_⟩
    · intro fd len
      simp [Endpoint.receiveMessageForChannel, hhdr, himp, hr]
    · simp [Endpoint.receiveMessageForChannel, hhdr, himp, hr]
    · intro _
      refine ⟨?_, ?_, ?_⟩ <;>
        simp [Endpoint.receiveMessageForChannel, hhdr, himp, hr]
  | some e =>
    by_cases hesh : e = ESHUTDOWN
    · refine ⟨?_, ?_, ?_⟩
      · intro fd len
        simp [Endpoint.receiveMessageForChannel, hhdr, himp, hr, hesh]
      · simp [Endpoint.receiveMessageForChannel, hhdr, himp, hr, hesh]
      · simp [hr]
    · refine ⟨?_, ?_, ?_⟩
      · intro fd len
        simp [Endpoint.receiveMessageForChannel, hhdr, himp, hr, hesh]
      · simp [Endpoint.receiveMessageForChannel, hhdr, himp, hr, hesh]
      · simp [hr]

/-- An impulse request that (abusively) declares a positive send length. -/
def impulseReq : RequestHeader :=
  { emptyRequest with
      op := 10, is_impulse := true, send_len := 100,
      impulse_payload := [1, 2, 3, 4] }

/-- A receive oracle delivering `impulseReq` with all syscalls succeeding. -/
def impulseRecv : RecvOracle :=
  { headerResult := .ok impulseReq, payloadResult := .ok [],
    rearmErr := none, closeEpollDelErr := none }

/-- Concrete run of C6: an impulse with declared send length 100 on channel
fd 5 of `epWithChannel`. -/
theorem claim_C6_impulse_receive_witness :
    impulseRecv.headerResult = .ok impulseReq ∧
    impulseReq.is_impulse = true ∧
    Action.recvPayload 5 100 ∉
      (epWithChannel.receiveMessageForChannel impulseRecv 5
        emptyMessage).2.2.2 ∧
    (epWithChannel.receiveMessageForChannel impulseRecv 5
      emptyMessage).2.2.2.take 2 = [Action.recvHeader 5, Action.rearm 5] ∧
    (epWithChannel.receiveMessageForChannel impulseRecv 5
      emptyMessage).2.1.info.mid = IMPULSE_MESSAGE_ID :=
  ⟨rfl, rfl,
    (claim_C6_impulse_receive epWithChannel impulseRecv 5 emptyMessage
      impulseReq rfl rfl).1 5 100,
    (claim_C6_impulse_receive epWithChannel impulseRecv 5 emptyMessage
      impulseReq rfl rfl).2.1,
    ((claim_C6_impulse_receive epWithChannel impulseRecv 5 emptyMessage
      impulseReq rfl rfl).2.2 rfl).2.1⟩

/-- Shape of one `ReceiveMessageForChannel` call: its action trace is the
header read followed only by payload reads / re-arms of the same fd, and on
a successful return the reverse channel map is unchanged. -/
theorem receive_cases (ep : Endpoint) (o : RecvOracle) (cfd : Int)
    (m : Message) :
    ∃ t,
      (ep.receiveMessageForChannel o cfd m).2.2.2 =
        Action.recvHeader cfd :: t ∧
      (∀ act ∈ t, (∃ len, act = Action.recvPayload cfd len) ∨
        act = Action.rearm cfd) ∧
      ((ep.receiveMessageForChannel o cfd m).1 = .ok () →
        (ep.receiveMessageForChannel o cfd m).2.2.1.channel_fd_to_id_ =
          ep.channel_fd_to_id_) := by
  cases hh : o.headerResult with
  | error e =>
    by_cases hesh : e = ESHUTDOWN
    · refine ⟨[], ?_, ?_, ?_⟩
      · simp [Endpoint.receiveMessageForChannel, hh, hesh]
      · simp
      · intro _
        simp [Endpoint.receiveMessageForChannel, hh, hesh,
          Endpoint.buildCloseMessage, Endpoint.getNextAvailableMessageId]
    · refine ⟨[], ?_, ?_, ?_⟩
      · simp [Endpoint.receiveMessageForChannel, hh, hesh]
      · simp
      · intro hok
        simp [Endpoint.receiveMessageForChannel, hh, hesh] at hok
  | ok req =>
    by_cases himp : req.is_impulse = true
    · cases hr : o.rearmErr with
      | none =>
        refine ⟨[Action.rearm cfd], ?_, ?_, ?_⟩
        · simp [Endpoint.receiveMessageForChannel, hh, himp, hr]
        · intro act hact
          simp at hact
          subst hact
          exact Or.inr rfl
        · intro _
          simp [Endpoint.receiveMessageForChannel, hh, himp, hr]
      | some e =>
        by_cases hesh : e = ESHUTDOWN
        · refine ⟨[Action.rearm cfd], ?_, ?_, ?_⟩
          · simp [Endpoint.receiveMessageForChannel, hh, himp, hr, hesh]
          · intro act hact
            simp at hact
            subst hact
            exact Or.inr rfl
          · intro _
            simp [Endpoint.receiveMessageForChannel, hh, himp, hr, hesh,
              Endpoint.buildCloseMessage, Endpoint.getNextAvailableMessageId]
        · refine ⟨[Action.rearm cfd], ?_, ?_, ?_⟩
          · simp [Endpoint.receiveMessageForChannel, hh, himp, hr, hesh]
          · intro act hact
            simp at hact
            subst hact
            exact Or.inr rfl
          · intro hok
            simp [Endpoint.receiveMessageForChannel, hh, himp, hr, hesh]
              at hok
    · have himp2 : req.is_impulse = false := by
        cases hb : req.is_impulse
        · rfl
        · exact absurd hb himp
      by_cases hlen : 0 < req.send_len
      · cases hpr : o.payloadResult with
        | ok data =>
          refine ⟨[Action.recvPayload cfd req.send_len], ?_, ?_, ?_⟩
          · simp [Endpoint.receiveMessageForChannel, hh, himp2, hlen, hpr]
          · intro act hact
            simp at hact
            subst hact
            exact Or.inl ⟨req.send_len, rfl⟩
          · intro _
            simp [Endpoint.receiveMessageForChannel, hh, himp2, hlen, hpr,
              Endpoint.getNextAvailableMessageId]
        | error e =>
          by_cases hesh : e = ESHUTDOWN
          · refine ⟨[Action.recvPayload cfd req.send_len], ?_, ?_, ?_⟩
            · simp [Endpoint.receiveMessageForChannel, hh, himp2, hlen, hpr,
                hesh]
            · intro act hact
              simp at hact
              subst hact
              exact Or.inl ⟨req.send_len, rfl⟩
            · intro _
              simp [Endpoint.receiveMessageForChannel, hh, himp2, hlen, hpr,
                hesh, Endpoint.buildCloseMessage,
                Endpoint.getNextAvailableMessageId]
          · refine ⟨[Action.recvPayload cfd req.send_len], ?_, ?_, ?_⟩
            · simp [Endpoint.receiveMessageForChannel, hh, himp2, hlen, hpr,
                hesh]
            · intro act hact
              simp at hact
              subst hact
              exact Or.inl ⟨req.send_len, rfl⟩
            · intro hok
              simp [Endpoint.receiveMessageForChannel, hh, himp2, hlen, hpr,
                hesh] at hok
      · refine ⟨[], ?_, ?_, ?_⟩
        · simp [Endpoint.receiveMessageForChannel, hh, himp2, hlen]
        · simp
        · intro _
          simp [Endpoint.receiveMessageForChannel, hh, himp2, hlen,
            Endpoint.getNextAvailableMessageId]

theorem accept_not_mem_receive_trace (ep : Endpoint) (o : RecvOracle)
    (cfd : Int) (m : Message) :
    Action.accept ∉ (ep.receiveMessageForChannel o cfd m).2.2.2 := by
  obtain ⟨t, htr, hmem, _⟩ := receive_cases ep o cfd m
  rw [htr]
  intro hc
  rcases List.mem_cons.mp hc with h1 | h2
  · exact Action.noConfusion h1
  · rcases hmem _ h2 with ⟨len, h3⟩ | h3
    · exact Action.noConfusion h3
    · exact Action.noConfusion h3

theorem rearm_mem_receive_trace (ep : Endpoint) (o : RecvOracle)
    (cfd f : Int) (m : Message)
    (h : Action.rearm f ∈ (ep.receiveMessageForChannel o cfd m).2.2.2) :
    f = cfd := by
  obtain ⟨t, htr, hmem, _⟩ := receive_cases ep o cfd m
  rw [htr] at h
  rcases List.mem_cons.mp h with h1 | h2
  · exact Action.noConfusion h1
  · rcases hmem _ h2 with ⟨len, h3⟩ | h3
    · exact Action.noConfusion h3
    · exact Action.rearm.inj h3

theorem findValue_emplaceKey_self (k : Int) (v : α) (m : List (Int × α)) :
    (findValue k (emplaceKey k v m)).isSome := by
  unfold emplaceKey
  by_cases h : (findValue k m).isSome
  · rw [if_pos h]
    exact h
  · rw [if_neg h]
    simp [findValue]

theorem onNewChannelLocked_fd_map {ep : Endpoint} {e : Option Int}
    {fd ev : Int} {cs : Option Nat} {id : Int} {ep2 : Endpoint}
    (h : ep.onNewChannelLocked e fd ev cs = .ok (id, ep2)) :
    ep2.channel_fd_to_id_ = emplaceKey fd id ep.channel_fd_to_id_ := by
  cases e with
  | some e2 => simp [Endpoint.onNewChannelLocked] at h
  | none =>
    rw [Endpoint.onNewChannelLocked] at h
    cases hfind : findFreeChannelId ep.channels_ ep.last_channel_id_
        channelIdFuel with
    | none => rw [hfind] at h; simp at h
    | some id0 =>
      rw [hfind] at h
      simp only [Except.ok.injEq, Prod.mk.injEq] at h
      obtain ⟨hid, hep2⟩ := h
      subst hid
      rw [← hep2]

theorem acceptConnection_count_accept (ep : Endpoint) (ao : AcceptOracle)
    (ro : RecvOracle) (m : Message) :
    (ep.acceptConnection ao ro m).2.2.2.count Action.accept = 1 := by
  cases har : ao.acceptResult with
  | error e => simp [Endpoint.acceptConnection, har]
  | ok cfd =>
    cases hp : ao.passcredErr with
    | some e => simp [Endpoint.acceptConnection, har, hp, List.count_cons]
    | none =>
      cases hadd : ep.onNewChannelLocked ao.epollAddErr cfd ao.event_fd
          none with
      | error e =>
        simp [Endpoint.acceptConnection, har, hp, hadd, List.count_cons]
      | ok pr =>
        simp only [Endpoint.acceptConnection, har, hp, hadd,
          List.count_append, List.count_cons]
        have hz : (pr.2.receiveMessageForChannel ro cfd m).2.2.2.count
            Action.accept = 0 :=
          List.count_eq_zero.mpr (accept_not_mem_receive_trace pr.2 ro cfd m)
        simp [hz, List.count_cons, List.count_nil]

theorem rearm_socket_not_mem_accept_trace (ep : Endpoint) (ao : AcceptOracle)
    (ro : RecvOracle) (m : Message)
    (hfresh : ∀ fd2, ao.acceptResult = .ok fd2 → fd2 ≠ ep.socket_fd_) :
    Action.rearm ep.socket_fd_ ∉ (ep.acceptConnection ao ro m).2.2.2 := by
  cases har : ao.acceptResult with
  | error e => simp [Endpoint.acceptConnection, har]
  | ok cfd =>
    have hcf : cfd ≠ ep.socket_fd_ := hfresh cfd har
    cases hp : ao.passcredErr with
    | some e => simp [Endpoint.acceptConnection, har, hp]
    | none =>
      cases hadd : ep.onNewChannelLocked ao.epollAddErr cfd ao.event_fd
          none with
      | error e => simp [Endpoint.acceptConnection, har, hp, hadd]
      | ok pr =>
        simp only [Endpoint.acceptConnection, har, hp, hadd, List.cons_append,
          List.nil_append, List.mem_cons, List.mem_append]
        intro hc
        rcases hc with h1 | h1 | h1 | h1
        · exact Action.noConfusion h1
        · exact Action.noConfusion h1
        · exact Action.noConfusion h1
        · exact hcf
            (rearm_mem_receive_trace pr.2 ro cfd ep.socket_fd_ m h1).symm

/-- A wait oracle: the listening socket (fd 3) is reported ready but
`accept4` fails with errno 24. -/
def acceptFailWait : WaitOracle :=
  { wait := .event 3 false,
    acc :=
      { acceptResult := .error 24, passcredErr := none,
        epollAddErr := none, event_fd := 7 },
    recv := shutdownRecv, listenRearmErr := none }

/-- C5 counterexample: with the listening socket (fd 3) reported ready and
`accept4` failing, `MessageReceive` returns the error without re-arming the
listening socket's one-shot interest — so the claim's "on every return path
of the accept branch" fails on this return path. -/
theorem claim_C5_counterexample :
    (initialEndpoint 3 4).socket_fd_ = 3 ∧
    acceptFailWait.wait = WaitResult.event 3 false ∧
    ((initialEndpoint 3 4).messageReceive acceptFailWait emptyMessage).1 =
      .error 24 ∧
    Action.rearm 3 ∉
      ((initialEndpoint 3 4).messageReceive acceptFailWait
        emptyMessage).2.2.2 := by decide

/-- C5 amended: when the listening socket is reported ready, exactly one
accept is attempted; when the whole accept–register–receive sequence
succeeds, credential passing was enabled on the accepted socket, it was
registered as a channel and immediately read from (the accept trace begins
`accept, setPasscred, epollAdd, recvHeader`, and the new fd is in the reverse
channel map), and the listening socket's one-shot interest is re-armed as the
final action before returning; but when any step of the sequence fails, the
error is returned without re-arming the listening socket. -/
theorem claim_C5_amended (ep : Endpoint) (o : WaitOracle) (msg0 : Message)
    (hup : Bool) (hw : o.wait = .event ep.socket_fd_ hup)
    (hnc : ep.socket_fd_ ≠ ep.cancel_event_fd_)
    (hfresh : ∀ fd2, o.acc.acceptResult = .ok fd2 → fd2 ≠ ep.socket_fd_) :
    (ep.messageReceive o msg0).2.2.2.count Action.accept = 1 ∧
    ((ep.acceptConnection o.acc o.recv msg0).1 = .ok () →
      (ep.messageReceive o msg0).2.2.2 =
        (ep.acceptConnection o.acc o.recv msg0).2.2.2 ++
          [Action.rearm ep.socket_fd_] ∧
      (o.listenRearmErr = none → (ep.messageReceive o msg0).1 = .ok ())) ∧
    (∀ e, (ep.acceptConnection o.acc o.recv msg0).1 = .error e →
      (ep.messageReceive o msg0).1 = .error e ∧
      Action.rearm ep.socket_fd_ ∉ (ep.messageReceive o msg0).2.2.2) ∧
    (∀ cfd id ep2, o.acc.acceptResult = .ok cfd → o.acc.passcredErr = none →
      ep.onNewChannelLocked o.acc.epollAddErr cfd o.acc.event_fd none =
        .ok (id, ep2) →
      (ep.acceptConnection o.acc o.recv msg0).2.2.2.take 4 =
        [Action.accept, Action.setPasscred cfd, Action.epollAdd cfd,
         Action.recvHeader cfd] ∧
      ((ep.acceptConnection o.acc o.recv msg0).1 = .ok () →
        (findValue cfd
          (ep.acceptConnection o.acc o.recv
            msg0).2.2.1.channel_fd_to_id_).isSome)) := by
  refine ⟨?_, ?_, ?_, ?_⟩
  · cases ha : (ep.acceptConnection o.acc o.recv msg0).1 with
    | error e =>
      simp only [Endpoint.messageReceive, hw, if_neg hnc, if_pos rfl, ha]
      exact acceptConnection_count_accept ep o.acc o.recv msg0
    | ok u =>
      simp only [Endpoint.messageReceive, hw, if_neg hnc, if_pos rfl, ha,
        List.count_append]
      have h1 := acceptConnection_count_accept ep o.acc o.recv msg0
      simp [h1, List.count_cons, List.count_nil]
  · intro hok
    constructor
    · simp [Endpoint.messageReceive, hw, hnc, hok]
    · intro hre
      simp [Endpoint.messageReceive, hw, hnc, hok, hre]
  · intro e he
    constructor
    · simp [Endpoint.messageReceive, hw, hnc, he]
    · simp only [Endpoint.messageReceive, hw, if_neg hnc, if_pos rfl, he]
      exact rearm_socket_not_mem_accept_trace ep o.acc o.recv msg0 hfresh
  · intro cfd id ep2 har hp hadd
    constructor
    · obtain ⟨t, htr, _, _⟩ := receive_cases ep2 o.recv cfd msg0
      simp [Endpoint.acceptConnection, har, hp, hadd, htr]
    · intro hok
      have hfd := (receive_cases ep2 o.recv cfd msg0).choose_spec.2.2
      -- reduce the accept results to the receive results
      have hared : (ep.acceptConnection o.acc o.recv msg0).1 =
          (ep2.receiveMessageForChannel o.recv cfd msg0).1 := by
        simp [Endpoint.acceptConnection, har, hp, hadd]
      have hared2 : (ep.acceptConnection o.acc o.recv
          msg0).2.2.1.channel_fd_to_id_ =
          (ep2.receiveMessageForChannel o.recv cfd
            msg0).2.2.1.channel_fd_to_id_ := by
        simp [Endpoint.acceptConnection, har, hp, hadd]
      rw [hared] at hok
      rw [hared2, hfd hok, onNewChannelLocked_fd_map hadd]
      exact findValue_emplaceKey_self cfd id ep.channel_fd_to_id_

/-- A wait oracle: the listening socket (fd 3) is ready, `accept4` yields
fd 5, registration succeeds, and the first read reports a clean shutdown. -/
def acceptOkWait : WaitOracle :=
  { wait := .event 3 false,
    acc :=
      { acceptResult := .ok 5, passcredErr := none, epollAddErr := none,
        event_fd := 6 },
    recv := shutdownRecv, listenRearmErr := none }

/-- Concrete run of the amended C5: a fully successful accept sequence ends
with the listening socket re-armed as the final action. -/
theorem claim_C5_amended_witness :
    acceptOkWait.wait =
      WaitResult.event (initialEndpoint 3 4).socket_fd_ false ∧
    ((initialEndpoint 3 4).acceptConnection acceptOkWait.acc acceptOkWait.recv
      emptyMessage).1 = .ok () ∧
    ((initialEndpoint 3 4).messageReceive acceptOkWait emptyMessage).2.2.2 =
      ((initialEndpoint 3 4).acceptConnection acceptOkWait.acc
        acceptOkWait.recv emptyMessage).2.2.2 ++ [Action.rearm 3] :=
  ⟨rfl, by decide,
    (((claim_C5_amended (initialEndpoint 3 4) acceptOkWait emptyMessage false
      rfl (by decide)
      (by intro fd2 h; simp [acceptOkWait] at h; subst h; decide)).2.1)
      (by decide)).1⟩

end PdxUds
